import Mathlib

/-
Verification of the task engine of TaskManager (src/src/taskManager.js).

The engine is embedded shallowly: tasks are records over Int / String / List,
timestamps are Int milliseconds with JS Date arithmetic made explicit, and every
mutating method is a pure function from an engine state to a result carrying the
thrown JS exception, if any, together with the state left behind (the source has
no rollback, so a throw keeps every mutation made before it).
-/

namespace PhoenixTask

/-- Task status values of taskManager.js (this.statuses). -/
inductive Status
  | pending
  | inProgress
  | onHold
  | completed
  | cancelled
  | overdue
deriving DecidableEq, Repr

/-- Recurring task types of taskManager.js (this.recurringTypes). -/
inductive RecurringType
  | daily
  | weekly
  | monthly
  | quarterly
  | yearly
  | custom
deriving DecidableEq, Repr

/-- Exceptions the embedded methods can throw. notFound covers the
Error("Task not found") and Error("One or both tasks not found") throws,
dependencyCycle covers the circular-reference throw in addTaskDependency, and
typeErrorUndefinedMethod models the TypeError raised by the call
this.cancelRecurringTask(taskId) in deleteTask (line 337): that method is not
defined anywhere in the class, so the call itself throws at runtime. -/
inductive Err
  | notFound
  | dependencyCycle
  | typeErrorUndefinedMethod
deriving DecidableEq, Repr

/-- Milliseconds in one day; JS setDate(getDate() + n) on a UTC-modelled Date
shifts the timestamp by n of these. -/
def dayMs : Int := 86400000

/-- Day count of a civil date (proleptic Gregorian), day 0 = 1970-01-01.
Standard civil-calendar conversion, used to model JS setMonth / setFullYear. -/
def daysFromCivil (y m d : Int) : Int :=
  let yy := if m ≤ 2 then y - 1 else y
  let era := Int.fdiv yy 400
  let yoe := yy - era * 400
  let mp := Int.emod (m + 9) 12
  let doy := Int.fdiv (153 * mp + 2) 5 + d - 1
  let doe := yoe * 365 + Int.fdiv yoe 4 - Int.fdiv yoe 100 + doy
  era * 146097 + doe - 719468

/-- Civil date (year, month 1-12, day 1-31) of a day count; inverse of
daysFromCivil. -/
def civilFromDays (z0 : Int) : Int × Int × Int :=
  let z := z0 + 719468
  let era := Int.fdiv z 146097
  let doe := z - era * 146097
  let yoe :=
    Int.fdiv (doe - Int.fdiv doe 1460 + Int.fdiv doe 36524 - Int.fdiv doe 146096) 365
  let y := yoe + era * 400
  let doy := doe - (365 * yoe + Int.fdiv yoe 4 - Int.fdiv yoe 100)
  let mp := Int.fdiv (5 * doy + 2) 153
  let d := doy - Int.fdiv (153 * mp + 2) 5 + 1
  let m := mp + (if mp < 10 then 3 else -9)
  (if m ≤ 2 then y + 1 else y, m, d)

/-- JS date.setMonth(date.getMonth() + k) on a millisecond timestamp: the
day-of-month is kept and overflows past the end of the target month roll into
the following month, exactly as new Date(y, m, d) normalizes. -/
def addMonthsJS (t k : Int) : Int :=
  let day := Int.fdiv t dayMs
  let ms := t - day * dayMs
  let c := civilFromDays day
  let y := c.1
  let m := c.2.1
  let d := c.2.2
  let total := (m - 1) + k
  let y2 := y + Int.fdiv total 12
  let m2 := Int.emod total 12 + 1
  (daysFromCivil y2 m2 1 + (d - 1)) * dayMs + ms

/-- JS date.setFullYear(date.getFullYear() + k) on a millisecond timestamp,
with the same day-overflow normalization as addMonthsJS. -/
def addYearsJS (t k : Int) : Int :=
  let day := Int.fdiv t dayMs
  let ms := t - day * dayMs
  let c := civilFromDays day
  let y := c.1
  let m := c.2.1
  let d := c.2.2
  (daysFromCivil (y + k) m 1 + (d - 1)) * dayMs + ms

/-- calculateNextDueDate (lines 697-719): switch on recurringType; DAILY adds
interval days, WEEKLY adds 7 * interval days, MONTHLY / QUARTERLY use setMonth,
YEARLY uses setFullYear, and any other value (CUSTOM or null) falls through the
switch and returns fromDate unchanged. -/
def calculateNextDueDate (recurringType : Option RecurringType)
    (recurringInterval : Int) (fromDate : Int) : Int :=
  match recurringType with
  | some RecurringType.daily => fromDate + recurringInterval * dayMs
  | some RecurringType.weekly => fromDate + 7 * recurringInterval * dayMs
  | some RecurringType.monthly => addMonthsJS fromDate recurringInterval
  | some RecurringType.quarterly => addMonthsJS fromDate (3 * recurringInterval)
  | some RecurringType.yearly => addYearsJS fromDate recurringInterval
  | _ => fromDate

/-- Rendering of new Date().toLocaleDateString() (en-US month/day/year), used
only for the title suffix of a materialized recurring instance. -/
def localeDateString (t : Int) : String :=
  let c := civilFromDays (Int.fdiv t dayMs)
  toString c.2.1 ++ "/" ++ toString c.2.2 ++ "/" ++ toString c.1

/-- Task record as built by createTask (lines 212-260). Purely presentational
metadata (tags, attachments, location, notification settings) carries no graph
or scheduler relevance and is omitted. -/
structure Task where
  id : Int
  title : String := ""
  description : String := ""
  priority : String := "MEDIUM"
  status : Status := Status.pending
  assignedTo : List String := []
  assignedBy : String := "system"
  department : Option String := none
  createdAt : Int := 0
  updatedAt : Int := 0
  dueDate : Option Int := none
  startDate : Option Int := none
  completedAt : Option Int := none
  progress : Int := 0
  estimatedHours : Option Int := none
  actualHours : Int := 0
  dependencies : List Int := []
  dependents : List Int := []
  isRecurring : Bool := false
  recurringType : Option RecurringType := none
  recurringInterval : Int := 1
  recurringEndDate : Option Int := none
  parentRecurringId : Option Int := none
deriving DecidableEq, Repr

/-- RecurringSchedule record as built by createRecurringTaskSchedule
(lines 617-638). -/
structure RecurringSchedule where
  id : Int
  parentTaskId : Int
  type : Option RecurringType := none
  interval : Int := 1
  nextDue : Int := 0
  endDate : Option Int := none
  isActive : Bool := true
  createdInstances : List Int := []
  template : Task
deriving DecidableEq, Repr

/-- Engine state: this.tasks plus the persisted recurring-schedule list. -/
structure EngineState where
  tasks : List Task
  schedules : List RecurringSchedule
deriving DecidableEq, Repr

/-- Result of a mutating call: the thrown exception, if any, and the state left
behind. JS performs no rollback, so on a throw the state keeps every mutation
made before the throwing statement. -/
structure MutResult where
  err : Option Err
  state : EngineState
deriving DecidableEq, Repr

/-- getTask (lines 347-349): first task whose id matches, as Array find. -/
def getTask (ts : List Task) (taskId : Int) : Option Task :=
  match ts with
  | [] => none
  | t :: rest => if t.id == taskId then some t else getTask rest taskId

/-- In-place mutation of the first task with the given id, as JS does after a
this.getTask lookup returns an object of this.tasks. -/
def modifyTask (ts : List Task) (taskId : Int) (f : Task → Task) : List Task :=
  match ts with
  | [] => []
  | t :: rest => if t.id == taskId then f t :: rest else t :: modifyTask rest taskId f

/-- One step of updateTaskStatuses (lines 844-865): a task with a dueDate
strictly before now whose status is none of COMPLETED, CANCELLED, OVERDUE is
promoted to OVERDUE. -/
def overdueSweepTask (now : Int) (t : Task) : Task :=
  match t.dueDate with
  | some d =>
      if d < now ∧ t.status ≠ Status.completed ∧ t.status ≠ Status.cancelled ∧
          t.status ≠ Status.overdue
      then { t with status := Status.overdue }
      else t
  | none => t

/-- updateTaskStatuses (lines 844-865), run by saveTasks after every store
write (line 94). -/
def updateTaskStatuses (now : Int) (ts : List Task) : List Task :=
  ts.map (overdueSweepTask now)

/-- getNextTaskId (lines 836-842): one more than the maximum of 0 and every
existing id. The source folds Math.max over task.id or 0; for integer ids the
or-0 guard only replaces a missing id, so it is the identity here. -/
def getNextTaskId (ts : List Task) : Int :=
  ts.foldl (fun m t => max m t.id) 0 + 1

/-- wouldCreateCircularDependency (lines 561-573) with an explicit fuel for the
recursion. Each productive recursive step inserts into the visited set an id of
a task present in the store and not visited before, so the recursion depth is
bounded by the number of distinct store ids plus one; the wrapper below
therefore passes fuel = length of the store plus one, which is never exhausted
on the reachable calls, and the fuel-out branch answers true like the
visited-set branch. -/
def wouldCreateCircularDependencyFuel (ts : List Task) (taskId : Int) :
    Nat → Int → List Int → Bool
  | 0, _, _ => true
  | fuel + 1, dependsOnId, visited =>
    if visited.contains dependsOnId then true
    else if dependsOnId == taskId then true
    else
      match getTask ts dependsOnId with
      | none => false
      | some dependencyTask =>
          dependencyTask.dependencies.any (fun depId =>
            wouldCreateCircularDependencyFuel ts taskId fuel depId
              (dependsOnId :: visited))

/-- wouldCreateCircularDependency with the fresh visited set of a top-level
call. -/
def wouldCreateCircularDependency (ts : List Task) (taskId dependsOnId : Int) : Bool :=
  wouldCreateCircularDependencyFuel ts taskId (ts.length + 1) dependsOnId []

/-- canStartTask (lines 575-584): false when the id is absent, otherwise every
dependency id must resolve to a task whose status is COMPLETED. -/
def canStartTask (ts : List Task) (taskId : Int) : Bool :=
  match getTask ts taskId with
  | none => false
  | some task =>
      task.dependencies.all (fun depId =>
        match getTask ts depId with
        | some depTask => depTask.status == Status.completed
        | none => false)

/-- addTaskDependency (lines 514-541): NotFound if either id is absent, the
cycle check throws before any mutation, then the edge is added idempotently on
both sides and saveTasks sweeps statuses. -/
def addTaskDependency (s : EngineState) (now taskId dependsOnId : Int) : MutResult :=
  match getTask s.tasks taskId, getTask s.tasks dependsOnId with
  | some _, some _ =>
      if wouldCreateCircularDependency s.tasks taskId dependsOnId then
        ⟨some Err.dependencyCycle, s⟩
      else
        let ts1 := modifyTask s.tasks taskId (fun t =>
          if t.dependencies.contains dependsOnId then t
          else { t with dependencies := t.dependencies ++ [dependsOnId] })
        let ts2 := modifyTask ts1 dependsOnId (fun t =>
          if t.dependents.contains taskId then t
          else { t with dependents := t.dependents ++ [taskId] })
        ⟨none, { s with tasks := updateTaskStatuses now ts2 }⟩
  | _, _ => ⟨some Err.notFound, s⟩

/-- removeTaskDependency (lines 543-559): both lookups happen at entry; each
present side has the other id filtered out of its list; never throws; saveTasks
sweeps statuses. -/
def removeTaskDependency (s : EngineState) (now taskId dependsOnId : Int) : MutResult :=
  let ts1 :=
    match getTask s.tasks taskId with
    | some _ => modifyTask s.tasks taskId (fun t =>
        { t with dependencies := t.dependencies.filter (fun i => i != dependsOnId) })
    | none => s.tasks
  let ts2 :=
    match getTask s.tasks dependsOnId with
    | some _ => modifyTask ts1 dependsOnId (fun t =>
        { t with dependents := t.dependents.filter (fun i => i != taskId) })
    | none => ts1
  ⟨none, { s with tasks := updateTaskStatuses now ts2 }⟩

/-- Add phase of updateTaskDependencies: addTaskDependency per id, aborting at
the first throw with the state mutated so far. -/
def addDependenciesList (s : EngineState) (now taskId : Int) : List Int → MutResult
  | [] => ⟨none, s⟩
  | depId :: rest =>
    let r := addTaskDependency s now taskId depId
    match r.err with
    | some e => ⟨some e, r.state⟩
    | none => addDependenciesList r.state now taskId rest

/-- updateTaskDependencies (lines 908-921): silently returns when the id is
absent; otherwise removes every current dependency edge (the forEach iterates
the list captured at entry; removeTaskDependency only reassigns fresh arrays,
so all entries are visited) and re-adds the new list one by one. -/
def updateTaskDependencies (s : EngineState) (now taskId : Int)
    (newDependencies : List Int) : MutResult :=
  match getTask s.tasks taskId with
  | none => ⟨none, s⟩
  | some task =>
    let s1 := task.dependencies.foldl
      (fun acc depId => (removeTaskDependency acc now taskId depId).state) s
    addDependenciesList s1 now taskId newDependencies

/-- Partial update object passed to updateTask; a none field is absent from the
JS updates object and leaves the merged record unchanged. Fields outside this
record are never sent by the embedded callers. -/
structure TaskUpdates where
  title : Option String := none
  description : Option String := none
  status : Option Status := none
  assignedTo : Option (List String) := none
  dependencies : Option (List Int) := none
  progress : Option Int := none
  actualHours : Option Int := none
  completedAt : Option Int := none
  dueDate : Option (Option Int) := none
deriving DecidableEq, Repr

/-- The spread merge of updateTask (lines 289-293): updates overwrite the old
fields and updatedAt is stamped. -/
def mergeUpdates (t : Task) (u : TaskUpdates) (now : Int) : Task :=
  { t with
    title := u.title.getD t.title
    description := u.description.getD t.description
    status := u.status.getD t.status
    assignedTo := u.assignedTo.getD t.assignedTo
    dependencies := u.dependencies.getD t.dependencies
    progress := u.progress.getD t.progress
    actualHours := u.actualHours.getD t.actualHours
    completedAt := match u.completedAt with | some c => some c | none => t.completedAt
    dueDate := u.dueDate.getD t.dueDate
    updatedAt := now }

/-- State effect of handleStatusChange (lines 867-877): entering COMPLETED
stamps completedAt and forces progress to 100; checkDependentTasks and the
notification are log or sink effects with no store mutation. -/
def handleStatusChange (t : Task) (now : Int) (newStatus : Status) : Task :=
  if newStatus = Status.completed then
    { t with completedAt := some now, progress := 100 }
  else t

/-- updateTask (lines 282-322). The merged record is built first from the old
record; the status handler mutates that local record; dependency handling then
mutates the store (and a throw there propagates, leaving the merged record
unwritten); finally the merged record replaces the slot wholesale, which is why
a supplied dependencies list lands raw in the record, and saveTasks sweeps. -/
def updateTask (s : EngineState) (now taskId : Int) (u : TaskUpdates) : MutResult :=
  match getTask s.tasks taskId with
  | none => ⟨some Err.notFound, s⟩
  | some oldTask =>
    let merged := mergeUpdates oldTask u now
    let updatedTask :=
      match u.status with
      | some st => if st ≠ oldTask.status then handleStatusChange merged now st else merged
      | none => merged
    let afterDeps : MutResult :=
      match u.dependencies with
      | some newDeps => updateTaskDependencies s now taskId newDeps
      | none => ⟨none, s⟩
    match afterDeps.err with
    | some e => ⟨some e, afterDeps.state⟩
    | none =>
      let ts := modifyTask afterDeps.state.tasks taskId (fun _ => updatedTask)
      ⟨none, { afterDeps.state with tasks := updateTaskStatuses now ts }⟩

/-- Input object of createTask; a none field is absent and the or-defaults of
lines 212-260 apply. -/
structure TaskData where
  title : String := ""
  description : Option String := none
  priority : Option String := none
  status : Option Status := none
  assignedTo : Option (List String) := none
  department : Option String := none
  dueDate : Option Int := none
  startDate : Option Int := none
  estimatedHours : Option Int := none
  dependencies : Option (List Int) := none
  isRecurring : Bool := false
  recurringType : Option RecurringType := none
  recurringInterval : Option Int := none
  recurringEndDate : Option Int := none
  parentRecurringId : Option Int := none
deriving DecidableEq, Repr

/-- The newTask object literal of createTask (lines 212-260); creator stands
for currentUser email or "system". -/
def newTaskFromData (ts : List Task) (now : Int) (creator : String) (d : TaskData) : Task :=
  { id := getNextTaskId ts
    title := d.title
    description := d.description.getD ""
    priority := d.priority.getD "MEDIUM"
    status := d.status.getD Status.pending
    assignedTo := d.assignedTo.getD []
    assignedBy := creator
    department := d.department
    createdAt := now
    updatedAt := now
    dueDate := d.dueDate
    startDate := d.startDate
    completedAt := none
    progress := 0
    estimatedHours := d.estimatedHours
    actualHours := 0
    dependencies := d.dependencies.getD []
    dependents := []
    isRecurring := d.isRecurring
    recurringType := d.recurringType
    recurringInterval := d.recurringInterval.getD 1
    recurringEndDate := d.recurringEndDate
    parentRecurringId := d.parentRecurringId }

/-- createRecurringTaskSchedule (lines 617-638): schedule id is Date.now(),
nextDue is one interval past now, the template snapshots the parent record. -/
def createRecurringTaskSchedule (s : EngineState) (now : Int) (parentTask : Task) :
    EngineState :=
  let sched : RecurringSchedule :=
    { id := now
      parentTaskId := parentTask.id
      type := parentTask.recurringType
      interval := parentTask.recurringInterval
      nextDue := calculateNextDueDate parentTask.recurringType parentTask.recurringInterval now
      endDate := parentTask.recurringEndDate
      isActive := true
      createdInstances := []
      template := parentTask }
  { s with schedules := s.schedules ++ [sched] }

/-- The push and saveTasks of createTask (lines 262-263): the new record is
appended and the save sweeps statuses. -/
def createTaskPush (s : EngineState) (now : Int) (newTask : Task) : EngineState :=
  { s with tasks := updateTaskStatuses now (s.tasks ++ [newTask]) }

/-- The dependency block of createTask (lines 266-268): edge creation runs only
for a non-empty list and can throw. -/
def createTaskDepsPhase (s0 : EngineState) (now : Int) (newTask : Task) : MutResult :=
  if newTask.dependencies.length > 0 then
    updateTaskDependencies s0 now newTask.id newTask.dependencies
  else ⟨none, s0⟩

/-- createTask (lines 210-280). The new record is pushed and saved (sweeping
statuses) before the dependency edges are validated, so a throw from the
dependency phase leaves the record in the store; on success of that phase a
recurring task registers its schedule, snapshotting the current stored record
(the getD default is unreachable: the pushed id stays present). -/
def createTask (s : EngineState) (now : Int) (creator : String) (d : TaskData) : MutResult :=
  let newTask := newTaskFromData s.tasks now creator d
  let afterDeps := createTaskDepsPhase (createTaskPush s now newTask) now newTask
  match afterDeps.err with
  | some e => ⟨some e, afterDeps.state⟩
  | none =>
    if newTask.isRecurring then
      let current := (getTask afterDeps.state.tasks newTask.id).getD newTask
      ⟨none, createRecurringTaskSchedule afterDeps.state now current⟩
    else ⟨none, afterDeps.state⟩

/-- removeDependencies (lines 901-906): strips the id from the dependency and
dependent lists of every task. -/
def removeDependenciesAll (ts : List Task) (taskId : Int) : List Task :=
  ts.map (fun t =>
    { t with
      dependencies := t.dependencies.filter (fun i => i != taskId)
      dependents := t.dependents.filter (fun i => i != taskId) })

/-- The splice of deleteTask: removes the first record with the id. -/
def removeFirstById (ts : List Task) (taskId : Int) : List Task :=
  match ts with
  | [] => []
  | t :: rest => if t.id == taskId then rest else t :: removeFirstById rest taskId

/-- deleteTask (lines 324-345). After the graph cleanup, a recurring task hits
the call this.cancelRecurringTask(taskId); that method does not exist in the
class, so the call throws a TypeError with the cleanup already applied and the
record still in the store. A non-recurring task is spliced out and saveTasks
sweeps. -/
def deleteTask (s : EngineState) (now taskId : Int) : MutResult :=
  match getTask s.tasks taskId with
  | none => ⟨some Err.notFound, s⟩
  | some task =>
    let ts1 := removeDependenciesAll s.tasks taskId
    if task.isRecurring then
      ⟨some Err.typeErrorUndefinedMethod, { s with tasks := ts1 }⟩
    else
      let ts2 := removeFirstById ts1 taskId
      ⟨none, { s with tasks := updateTaskStatuses now ts2 }⟩

/-- The clamp of updateTaskProgress (line 445): Math.max(0, Math.min(100, p)). -/
def clampProgress (p : Int) : Int := max 0 (min 100 p)

/-- updateTaskProgress (lines 441-460): stores the clamped progress but tests
the raw argument for the status transitions, then delegates to updateTask. -/
def updateTaskProgress (s : EngineState) (now taskId progress : Int)
    (actualHours : Option Int) : MutResult :=
  match getTask s.tasks taskId with
  | none => ⟨some Err.notFound, s⟩
  | some task =>
    let base : TaskUpdates :=
      { progress := some (clampProgress progress), actualHours := actualHours }
    let u : TaskUpdates :=
      if progress = 100 ∧ task.status ≠ Status.completed then
        { base with status := some Status.completed, completedAt := some now }
      else if progress > 0 ∧ task.status = Status.pending then
        { base with status := some Status.inProgress }
      else base
    updateTask s now taskId u

/-- getOverdueTasks (lines 366-373): keeps tasks that have a dueDate strictly
before now and are not COMPLETED; no other status is excluded. -/
def getOverdueTasks (ts : List Task) (now : Int) : List Task :=
  ts.filter (fun t =>
    match t.dueDate with
    | none => false
    | some d => if t.status == Status.completed then false else decide (d < now))

/-- The instanceData object literal of createRecurringTaskInstance (lines
674-683): the template spread with the materialization overrides, restricted to
the fields createTask reads. -/
def instanceData (now : Int) (schedule : RecurringSchedule) : TaskData :=
  let template := schedule.template
  { title := template.title ++ " (" ++ localeDateString now ++ ")"
    description := some template.description
    priority := some template.priority
    status := some template.status
    assignedTo := some template.assignedTo
    department := template.department
    dueDate := some schedule.nextDue
    startDate := template.startDate
    estimatedHours := template.estimatedHours
    dependencies := some template.dependencies
    isRecurring := false
    recurringType := template.recurringType
    recurringInterval := some template.recurringInterval
    recurringEndDate := template.recurringEndDate
    parentRecurringId := some schedule.id }

/-- createRecurringTaskInstance (lines 672-695): spreads the template with the
materialization overrides into createTask; on success the schedule records the
new id and advances nextDue one interval from its previous value, using the
recurrence fields of the template. -/
def createRecurringTaskInstance (s : EngineState) (now : Int) (creator : String)
    (schedule : RecurringSchedule) : MutResult × RecurringSchedule :=
  let template := schedule.template
  let newId := getNextTaskId s.tasks
  let r := createTask s now creator (instanceData now schedule)
  match r.err with
  | some e => (⟨some e, r.state⟩, schedule)
  | none =>
    (⟨none, r.state⟩,
     { schedule with
         createdInstances := schedule.createdInstances ++ [newId]
         nextDue := calculateNextDueDate template.recurringType
           template.recurringInterval schedule.nextDue })

/-- The forEach of processRecurringTasks over the loaded schedule list: skips
inactive schedules, deactivates one whose endDate passed, materializes one
whose nextDue is due; a throw from the materialization aborts the loop with the
schedules processed so far, the throwing one updated only as far as createTask
got. -/
def processSchedules (now : Int) (creator : String) :
    EngineState → List RecurringSchedule →
      Option Err × EngineState × List RecurringSchedule
  | s, [] => (none, s, [])
  | s, sched :: rest =>
    if sched.isActive = false then
      let r := processSchedules now creator s rest
      (r.1, r.2.1, sched :: r.2.2)
    else if (match sched.endDate with | some e => decide (e < now) | none => false) then
      let r := processSchedules now creator s rest
      (r.1, r.2.1, { sched with isActive := false } :: r.2.2)
    else if sched.nextDue ≤ now then
      let ri := createRecurringTaskInstance s now creator sched
      match ri.1.err with
      | some e => (some e, ri.1.state, ri.2 :: rest)
      | none =>
        let r := processSchedules now creator ri.1.state rest
        (r.1, r.2.1, ri.2 :: r.2.2)
    else
      let r := processSchedules now creator s rest
      (r.1, r.2.1, sched :: r.2.2)

/-- processRecurringTasks (lines 650-670). On a clean pass the mutated schedule
list is written back; a throw from instance creation skips that write, so the
persisted schedules stay as loaded while the task mutations made in memory
remain. -/
def processRecurringTasks (s : EngineState) (now : Int) (creator : String) : MutResult :=
  let r := processSchedules now creator s s.schedules
  match r.1 with
  | some e => ⟨some e, { tasks := r.2.1.tasks, schedules := s.schedules }⟩
  | none => ⟨none, { tasks := r.2.1.tasks, schedules := r.2.2 }⟩

/-- The symmetry invariant of spec section 8: B is a dependency of A exactly
when A is a dependent of B, over all store records. -/
def DepSymmetric (ts : List Task) : Prop :=
  ∀ a ∈ ts, ∀ b ∈ ts, (b.id ∈ a.dependencies ↔ a.id ∈ b.dependents)

instance : DecidablePred DepSymmetric := fun ts => by
  unfold DepSymmetric
  infer_instance

/-! Helper lemmas about the store operations. -/

theorem overdueSweepTask_id (now : Int) (t : Task) : (overdueSweepTask now t).id = t.id := by
  unfold overdueSweepTask
  split
  · split <;> rfl
  · rfl

theorem overdueSweepTask_dependencies (now : Int) (t : Task) :
    (overdueSweepTask now t).dependencies = t.dependencies := by
  unfold overdueSweepTask
  split
  · split <;> rfl
  · rfl

theorem getTask_updateTaskStatuses (now : Int) (ts : List Task) (tid : Int) :
    getTask (updateTaskStatuses now ts) tid = (getTask ts tid).map (overdueSweepTask now) := by
  induction ts with
  | nil => rfl
  | cons t rest ih =>
    unfold updateTaskStatuses at ih ⊢
    rw [List.map_cons]
    unfold getTask
    rw [overdueSweepTask_id]
    by_cases h : (t.id == tid) = true
    · rw [if_pos h, if_pos h]
      rfl
    · rw [if_neg h, if_neg h]
      exact ih

theorem getTask_modifyTask_self (ts : List Task) (tid : Int) (f : Task → Task)
    (hf : ∀ t, (f t).id = t.id) :
    getTask (modifyTask ts tid f) tid = (getTask ts tid).map f := by
  induction ts with
  | nil => rfl
  | cons t rest ih =>
    unfold modifyTask
    by_cases h : (t.id == tid) = true
    · rw [if_pos h]
      unfold getTask
      rw [hf, if_pos h, if_pos h]
      rfl
    · rw [if_neg h]
      unfold getTask
      rw [if_neg h, if_neg h]
      exact ih

theorem getTask_modifyTask_ne (ts : List Task) (tid tid2 : Int) (f : Task → Task)
    (hf : ∀ t, (f t).id = t.id) (hne : tid2 ≠ tid) :
    getTask (modifyTask ts tid f) tid2 = getTask ts tid2 := by
  induction ts with
  | nil => rfl
  | cons t rest ih =>
    unfold modifyTask
    by_cases h : (t.id == tid) = true
    · rw [if_pos h]
      unfold getTask
      have hid : t.id = tid := beq_iff_eq.mp h
      have hno : (t.id == tid2) = false := by
        apply beq_eq_false_iff_ne.mpr
        rw [hid]
        exact fun hx => hne hx.symm
      rw [hf, if_neg (by simp [hno]), if_neg (by simp [hno])]
    · rw [if_neg h]
      unfold getTask
      by_cases h2 : (t.id == tid2) = true
      · rw [if_pos h2, if_pos h2]
      · rw [if_neg h2, if_neg h2]
        exact ih

theorem ids_modifyTask (ts : List Task) (tid : Int) (f : Task → Task)
    (hf : ∀ t, (f t).id = t.id) :
    (modifyTask ts tid f).map Task.id = ts.map Task.id := by
  induction ts with
  | nil => rfl
  | cons t rest ih =>
    unfold modifyTask
    by_cases h : (t.id == tid) = true
    · rw [if_pos h]
      simp [hf]
    · rw [if_neg h]
      simp only [List.map_cons]
      rw [ih]

theorem ids_updateTaskStatuses (now : Int) (ts : List Task) :
    (updateTaskStatuses now ts).map Task.id = ts.map Task.id := by
  unfold updateTaskStatuses
  rw [List.map_map]
  have : (Task.id ∘ overdueSweepTask now) = Task.id := by
    funext t
    exact overdueSweepTask_id now t
  rw [this]

theorem ids_addTaskDependency (s : EngineState) (now tid depId : Int) :
    (addTaskDependency s now tid depId).state.tasks.map Task.id = s.tasks.map Task.id := by
  unfold addTaskDependency
  cases h1 : getTask s.tasks tid with
  | none => cases h2 : getTask s.tasks depId <;> rfl
  | some ta =>
    cases h2 : getTask s.tasks depId with
    | none => rfl
    | some tb =>
      by_cases hc : wouldCreateCircularDependency s.tasks tid depId = true
      · rw [if_pos hc]
      · rw [if_neg hc]
        simp only
        rw [ids_updateTaskStatuses, ids_modifyTask, ids_modifyTask]
        · intro t; dsimp only; split <;> rfl
        · intro t; dsimp only; split <;> rfl

theorem ids_removeTaskDependency (s : EngineState) (now tid depId : Int) :
    (removeTaskDependency s now tid depId).state.tasks.map Task.id = s.tasks.map Task.id := by
  unfold removeTaskDependency
  dsimp only
  rw [ids_updateTaskStatuses]
  cases h1 : getTask s.tasks tid with
  | none =>
    cases h2 : getTask s.tasks depId with
    | none => rfl
    | some tb =>
      dsimp only
      exact ids_modifyTask _ _ _ (fun t => rfl)
  | some ta =>
    cases h2 : getTask s.tasks depId with
    | none =>
      dsimp only
      exact ids_modifyTask _ _ _ (fun t => rfl)
    | some tb =>
      dsimp only
      refine (ids_modifyTask _ _ _ ?_).trans (ids_modifyTask _ _ _ ?_) <;> intro t <;> rfl

theorem ids_removeFold (s : EngineState) (now tid : Int) (deps : List Int) :
    (deps.foldl (fun acc depId => (removeTaskDependency acc now tid depId).state) s).tasks.map
        Task.id = s.tasks.map Task.id := by
  induction deps generalizing s with
  | nil => rfl
  | cons d rest ih =>
    simp only [List.foldl_cons]
    rw [ih, ids_removeTaskDependency]

theorem ids_addDependenciesList (s : EngineState) (now tid : Int) (deps : List Int) :
    (addDependenciesList s now tid deps).state.tasks.map Task.id = s.tasks.map Task.id := by
  induction deps generalizing s with
  | nil => rfl
  | cons d rest ih =>
    unfold addDependenciesList
    dsimp only
    cases he : (addTaskDependency s now tid d).err with
    | some e =>
      dsimp only
      exact ids_addTaskDependency s now tid d
    | none =>
      dsimp only
      rw [ih]
      exact ids_addTaskDependency s now tid d

theorem ids_updateTaskDependencies (s : EngineState) (now tid : Int) (deps : List Int) :
    (updateTaskDependencies s now tid deps).state.tasks.map Task.id = s.tasks.map Task.id := by
  unfold updateTaskDependencies
  cases h : getTask s.tasks tid with
  | none => rfl
  | some t =>
    simp only
    rw [ids_addDependenciesList, ids_removeFold]

theorem foldlMaxInitLe (l : List Task) (init : Int) :
    init ≤ l.foldl (fun m t => max m t.id) init := by
  induction l generalizing init with
  | nil => exact le_refl _
  | cons x xs ih => exact le_trans (le_max_left init x.id) (ih (max init x.id))

theorem memLeFoldlMax (l : List Task) (init : Int) (t : Task) (ht : t ∈ l) :
    t.id ≤ l.foldl (fun m t2 => max m t2.id) init := by
  induction l generalizing init with
  | nil => cases ht
  | cons y ys ih =>
    rcases List.mem_cons.mp ht with h | h
    · subst h
      exact le_trans (le_max_right init t.id) (foldlMaxInitLe ys _)
    · exact ih (max init y.id) h

/-! Claim theorems. -/

/-- Fixture for C1: one existing task; the next assigned id is 2, and the
creation request names 2 itself as a dependency, which the cycle check
rejects. -/
def c1Before : EngineState := ⟨[{ id := 1, title := "t1" }], []⟩

def c1Data : TaskData := { title := "t2", dependencies := some [2] }

/-- C1, counterexample: createTask with a self-referential dependency throws
DependencyCycle as the claim says, but the store after the call is not the
store before it: the half-created record for id 2 was pushed before the edge
validation and is never rolled back. -/
theorem createTask_cycle_not_atomic :
    (createTask c1Before 0 "system" c1Data).err = some Err.dependencyCycle ∧
    (createTask c1Before 0 "system" c1Data).state ≠ c1Before := by
  constructor
  · decide
  · decide

theorem ids_createTaskDepsPhase (s0 : EngineState) (now : Int) (nt : Task) :
    (createTaskDepsPhase s0 now nt).state.tasks.map Task.id = s0.tasks.map Task.id := by
  unfold createTaskDepsPhase
  split
  · exact ids_updateTaskDependencies _ _ _ _
  · rfl

theorem ids_createTask (s : EngineState) (now : Int) (creator : String) (d : TaskData) :
    (createTask s now creator d).state.tasks.map Task.id =
      s.tasks.map Task.id ++ [getNextTaskId s.tasks] := by
  have hphase := ids_createTaskDepsPhase
    (createTaskPush s now (newTaskFromData s.tasks now creator d)) now
    (newTaskFromData s.tasks now creator d)
  have hpush : (createTaskPush s now (newTaskFromData s.tasks now creator d)).tasks.map Task.id
      = s.tasks.map Task.id ++ [getNextTaskId s.tasks] := by
    unfold createTaskPush
    dsimp only
    rw [ids_updateTaskStatuses, List.map_append]
    rfl
  unfold createTask
  dsimp only
  split
  · dsimp only
    rw [hphase, hpush]
  · split
    · dsimp only
      unfold createRecurringTaskSchedule
      dsimp only
      rw [hphase, hpush]
    · dsimp only
      rw [hphase, hpush]

/-- C1, amended: whenever createTask throws DependencyCycle, the record with
the freshly assigned id is nevertheless present in the store afterwards: the
creation is not atomic and the half-created task is retained. -/
theorem createTask_cycle_retains_record (s : EngineState) (now : Int) (creator : String)
    (d : TaskData)
    (h : (createTask s now creator d).err = some Err.dependencyCycle) :
    ∃ t ∈ (createTask s now creator d).state.tasks, t.id = getNextTaskId s.tasks := by
  have hmem : getNextTaskId s.tasks ∈ (createTask s now creator d).state.tasks.map Task.id := by
    rw [ids_createTask]
    exact List.mem_append_right _ (List.mem_singleton.mpr rfl)
  obtain ⟨t, htmem, htid⟩ := List.mem_map.mp hmem
  exact ⟨t, htmem, htid⟩

/-- C1, witness for the amended theorem at the concrete fixture. -/
theorem createTask_cycle_retains_record_witness :
    (createTask c1Before 0 "system" c1Data).err = some Err.dependencyCycle ∧
    ∃ t ∈ (createTask c1Before 0 "system" c1Data).state.tasks,
      t.id = getNextTaskId c1Before.tasks :=
  ⟨by decide, createTask_cycle_retains_record c1Before 0 "system" c1Data (by decide)⟩

/-- Fixtures for C3: from the empty store, create a plain task, then a
recurring task depending on it, then delete the recurring task. -/
def c3Data1 : TaskData := { title := "a" }

def c3Data2 : TaskData :=
  { title := "b", isRecurring := true, recurringType := some RecurringType.daily,
    dependencies := some [1] }

def c3State1 : EngineState := (createTask ⟨[], []⟩ 0 "u" c3Data1).state

def c3State2 : EngineState := (createTask c3State1 1 "u" c3Data2).state

def c3Result : MutResult := deleteTask c3State2 2 2

/-- C3: a completed-by-throwing sequence of the listed mutators leaves the
store asymmetric. The third operation, deleteTask of the recurring task 2,
strips id 2 from the dependent list of task 1 and then throws the TypeError of
the undefined cancelRecurringTask method before removing task 2, so task 2
still lists 1 as a dependency while task 1 no longer lists 2 as a dependent. -/
theorem dependency_symmetry_broken_by_recurring_delete :
    (createTask ⟨[], []⟩ 0 "u" c3Data1).err = none ∧
    (createTask c3State1 1 "u" c3Data2).err = none ∧
    c3Result.err = some Err.typeErrorUndefinedMethod ∧
    ¬ DepSymmetric c3Result.state.tasks := by
  refine ⟨by decide, by decide, by decide, by decide⟩

/-- Fixture for C4: tasks 1 and 2 share no direct edge, but task 2 depends on
task 3 which depends on task 1, with the dependent lists mirrored. -/
def c4Store : EngineState :=
  ⟨[{ id := 1, dependents := [3] },
    { id := 2, dependencies := [3] },
    { id := 3, dependencies := [1], dependents := [2] }], []⟩

/-- C4, counterexample: at this store the pair (1, 2) has no prior edges
between them, yet addEdge(1, 2) itself throws DependencyCycle (the simulated
edge closes the loop 2 to 3 to 1), and the subsequent addEdge(2, 1) succeeds
rather than failing with DependencyCycle. -/
theorem addEdge_second_call_can_succeed :
    (2 ∉ ({ id := 1, dependents := [3] } : Task).dependencies ∧
      1 ∉ ({ id := 2, dependencies := [3] } : Task).dependencies ∧
      2 ∉ ({ id := 1, dependents := [3] } : Task).dependents ∧
      1 ∉ ({ id := 2, dependencies := [3] } : Task).dependents) ∧
    (addTaskDependency c4Store 0 1 2).err = some Err.dependencyCycle ∧
    (addTaskDependency (addTaskDependency c4Store 0 1 2).state 0 2 1).err = none := by
  refine ⟨by decide, by decide, by decide⟩

/-- Fixture for C5: a pending task with no due date. -/
def c5State : EngineState := ⟨[{ id := 1 }], []⟩

/-- C5, counterexample: raw progress 150 is stored clamped to 100, but the
status transition tests the raw value, so the task becomes IN_PROGRESS rather
than COMPLETED and completedAt stays unset, although the clamped result is
100. -/
theorem updateTaskProgress_raw_check :
    (updateTaskProgress c5State 5 1 150 none).err = none ∧
    clampProgress 150 = 100 ∧
    (getTask (updateTaskProgress c5State 5 1 150 none).state.tasks 1).map
        (fun t => (t.status, t.progress, t.completedAt)) =
      some (Status.inProgress, 100, none) := by
  refine ⟨by decide, by decide, by decide⟩

/-- Fixture for C6: a cancelled task whose due date has passed. -/
def c6Task : Task := { id := 1, status := Status.cancelled, dueDate := some 0 }

/-- C6, counterexample: getOverdueTasks only excludes COMPLETED, so a CANCELLED
task with a past due date is returned, although the claim excludes it. -/
theorem getOverdueTasks_includes_cancelled :
    c6Task.status = Status.cancelled ∧
    getOverdueTasks [c6Task] 1 = [c6Task] ∧
    getOverdueTasks [c6Task] 1 ≠ [] := by
  refine ⟨rfl, by decide, by decide⟩

/-- C6, amended: getOverdueTasks returns exactly the tasks that carry a due
date strictly before now and whose status is not COMPLETED; CANCELLED tasks
are not excluded. -/
theorem mem_getOverdueTasks_iff (ts : List Task) (now : Int) (t : Task) :
    t ∈ getOverdueTasks ts now ↔
      t ∈ ts ∧ t.status ≠ Status.completed ∧ ∃ d, t.dueDate = some d ∧ d < now := by
  unfold getOverdueTasks
  rw [List.mem_filter]
  cases hdue : t.dueDate with
  | none => simp [hdue]
  | some d =>
    by_cases hc : t.status = Status.completed
    · simp [hdue, hc]
    · simp [hdue, hc]

/-- Fixtures for C7: create two tasks, delete the one with the highest id,
create again. -/
def c7State1 : EngineState := (createTask ⟨[], []⟩ 0 "u" { title := "a" }).state

def c7State2 : EngineState := (createTask c7State1 0 "u" { title := "b" }).state

def c7State3 : EngineState := (deleteTask c7State2 0 2).state

/-- C7, counterexample: id 2 is assigned to the second task, the task is
deleted, and the next creation assigns id 2 again, so an id of the same store
generation is reused after deletion. -/
theorem taskId_reused_after_delete :
    (∃ t ∈ c7State2.tasks, t.id = 2) ∧
    getTask c7State3.tasks 2 = none ∧
    (∃ t ∈ (createTask c7State3 0 "u" { title := "c" }).state.tasks, t.id = 2) := by
  refine ⟨by decide, by decide, by decide⟩

/-- C7, amended: the id assigned next is max of the existing ids and 0, plus
one, and is therefore strictly greater than, in particular distinct from,
every id currently in the store; uniqueness among live tasks holds, but an id
freed by deleting the task with the highest id is assigned again. -/
theorem getNextTaskId_fresh (ts : List Task) (t : Task) (ht : t ∈ ts) :
    t.id < getNextTaskId ts := by
  unfold getNextTaskId
  have := memLeFoldlMax ts 0 t ht
  omega

/-- C7, witness for the amended theorem at a concrete store. -/
theorem getNextTaskId_fresh_witness :
    ({ id := 1, title := "t1" } : Task) ∈ c1Before.tasks ∧
    ({ id := 1, title := "t1" } : Task).id < getNextTaskId c1Before.tasks :=
  ⟨by decide, getNextTaskId_fresh c1Before.tasks _ (by decide)⟩

/-- Fixtures for C8: a recurring task and its active schedule. -/
def c8Task : Task :=
  { id := 1, title := "r", isRecurring := true, recurringType := some RecurringType.daily }

def c8Sched : RecurringSchedule :=
  { id := 99, parentTaskId := 1, type := some RecurringType.daily, interval := 1,
    nextDue := 5, template := c8Task }

def c8State : EngineState := ⟨[c8Task], [c8Sched]⟩

/-- C8: deleting a recurring parent does not succeed and does not deactivate
its schedule: the call this.cancelRecurringTask is undefined, so deleteTask
throws a TypeError, the record stays in the store, and the schedule stays
active. -/
theorem deleteTask_recurring_throws_typeerror :
    (deleteTask c8State 0 1).err = some Err.typeErrorUndefinedMethod ∧
    (getTask (deleteTask c8State 0 1).state.tasks 1).isSome = true ∧
    (deleteTask c8State 0 1).state.schedules = [c8Sched] ∧
    c8Sched.isActive = true := by
  refine ⟨by decide, by decide, by decide, by decide⟩

/-- C9: for a task present in the store, canStartTask is true exactly when
every listed dependency id resolves to a task whose status is COMPLETED; with
an empty dependency list the quantifier is vacuous, so such a task can always
start. -/
theorem canStartTask_iff_deps_completed (ts : List Task) (taskId : Int) (t : Task)
    (h : getTask ts taskId = some t) :
    canStartTask ts taskId = true ↔
      ∀ depId ∈ t.dependencies,
        ∃ dt, getTask ts depId = some dt ∧ dt.status = Status.completed := by
  unfold canStartTask
  rw [h]
  rw [List.all_eq_true]
  constructor
  · intro hall depId hdep
    have hx := hall depId hdep
    cases hgt : getTask ts depId with
    | none => rw [hgt] at hx; exact absurd hx (by simp)
    | some dt =>
      rw [hgt] at hx
      exact ⟨dt, rfl, by simpa using hx⟩
  · intro hex depId hdep
    obtain ⟨dt, hdt, hst⟩ := hex depId hdep
    rw [hdt]
    simp [hst]

/-- C9, witness: task 2 depends on task 1, which is completed. -/
theorem canStartTask_iff_deps_completed_witness :
    getTask [{ id := 1, status := Status.completed }, { id := 2, dependencies := [1] }] 2 =
      some { id := 2, dependencies := [1] } ∧
    (canStartTask [{ id := 1, status := Status.completed }, { id := 2, dependencies := [1] }] 2
        = true ↔
      ∀ depId ∈ ({ id := 2, dependencies := [1] } : Task).dependencies,
        ∃ dt, getTask [{ id := 1, status := Status.completed },
          { id := 2, dependencies := [1] }] depId = some dt ∧
            dt.status = Status.completed) :=
  ⟨by decide, canStartTask_iff_deps_completed _ 2 _ (by decide)⟩

/-- C10: canStartTask on an id absent from the store returns false instead of
raising an error. -/
theorem canStartTask_absent_false (ts : List Task) (taskId : Int)
    (h : getTask ts taskId = none) : canStartTask ts taskId = false := by
  unfold canStartTask
  rw [h]

/-- C10, witness at the empty store. -/
theorem canStartTask_absent_false_witness :
    getTask ([] : List Task) 1 = none ∧ canStartTask [] 1 = false :=
  ⟨rfl, canStartTask_absent_false [] 1 rfl⟩

theorem getTask_modifyTask_found (ts : List Task) (tid : Int) (f : Task → Task) (t : Task)
    (h : getTask ts tid = some t) (hf : (f t).id = t.id) :
    getTask (modifyTask ts tid f) tid = some (f t) := by
  induction ts with
  | nil => exact absurd h (by simp [getTask])
  | cons a rest ih =>
    unfold getTask at h
    unfold modifyTask
    by_cases ha : (a.id == tid) = true
    · rw [if_pos ha] at h ⊢
      injection h with h2
      subst h2
      unfold getTask
      rw [hf, if_pos ha]
    · rw [if_neg ha] at h ⊢
      unfold getTask
      rw [if_neg ha]
      exact ih h

theorem getTask_some_ne_nil (ts : List Task) (tid : Int) (t : Task)
    (h : getTask ts tid = some t) : ts ≠ [] := by
  intro he
  subst he
  exact absurd h (by simp [getTask])

/-- C5, amended: updateTaskProgress stores the clamped progress, but the two
status transitions test the raw argument p, not the clamped value: raw p equal
to 100 on a non-COMPLETED task completes it and stamps completedAt; otherwise
raw p above 0 on a PENDING task moves it to IN_PROGRESS; otherwise the status
field is untouched. In every case the saveTasks sweep afterwards promotes the
record to OVERDUE when it has a past due date and is not COMPLETED, CANCELLED
or OVERDUE. -/
theorem updateTaskProgress_characterization (s : EngineState) (now taskId p : Int)
    (ah : Option Int) (t : Task) (h : getTask s.tasks taskId = some t) :
    (updateTaskProgress s now taskId p ah).err = none ∧
    getTask (updateTaskProgress s now taskId p ah).state.tasks taskId =
      some (overdueSweepTask now
        (if p = 100 ∧ t.status ≠ Status.completed then
          { t with
              progress := clampProgress p
              actualHours := ah.getD t.actualHours
              updatedAt := now
              status := Status.completed
              completedAt := some now }
         else if p > 0 ∧ t.status = Status.pending then
          { t with
              progress := clampProgress p
              actualHours := ah.getD t.actualHours
              updatedAt := now
              status := Status.inProgress }
         else
          { t with
              progress := clampProgress p
              actualHours := ah.getD t.actualHours
              updatedAt := now })) := by
  unfold updateTaskProgress
  rw [h]
  dsimp only
  by_cases h1 : p = 100 ∧ t.status ≠ Status.completed
  · rw [if_pos h1, if_pos h1]
    unfold updateTask
    rw [h]
    dsimp only
    rw [if_pos (Ne.symm h1.2)]
    refine ⟨rfl, ?_⟩
    rw [getTask_updateTaskStatuses]
    rw [getTask_modifyTask_found s.tasks taskId _ t h (by rfl)]
    dsimp only [Option.map]
    obtain ⟨hp, hst⟩ := h1
    subst hp
    unfold handleStatusChange mergeUpdates
    norm_num [clampProgress]
  · rw [if_neg h1, if_neg h1]
    by_cases h2 : p > 0 ∧ t.status = Status.pending
    · rw [if_pos h2, if_pos h2]
      unfold updateTask
      rw [h]
      dsimp only
      rw [if_pos (by rw [h2.2]; decide)]
      refine ⟨rfl, ?_⟩
      rw [getTask_updateTaskStatuses]
      rw [getTask_modifyTask_found s.tasks taskId _ t h (by rfl)]
      dsimp only [Option.map]
      unfold handleStatusChange mergeUpdates
      simp
    · rw [if_neg h2, if_neg h2]
      unfold updateTask
      rw [h]
      dsimp only
      refine ⟨rfl, ?_⟩
      rw [getTask_updateTaskStatuses]
      rw [getTask_modifyTask_found s.tasks taskId _ t h (by rfl)]
      dsimp only [Option.map]
      unfold mergeUpdates
      simp

/-- C5, witness for the amended theorem: raw 100 on a fresh pending task. -/
theorem updateTaskProgress_characterization_witness :
    getTask c5State.tasks 1 = some { id := 1 } ∧
    ((updateTaskProgress c5State 7 1 100 none).err = none ∧
      getTask (updateTaskProgress c5State 7 1 100 none).state.tasks 1 =
        some (overdueSweepTask 7
          (if (100 : Int) = 100 ∧ ({ id := 1 } : Task).status ≠ Status.completed then
            { ({ id := 1 } : Task) with
                progress := clampProgress 100
                actualHours := (none : Option Int).getD ({ id := 1 } : Task).actualHours
                updatedAt := 7
                status := Status.completed
                completedAt := some 7 }
           else if (100 : Int) > 0 ∧ ({ id := 1 } : Task).status = Status.pending then
            { ({ id := 1 } : Task) with
                progress := clampProgress 100
                actualHours := (none : Option Int).getD ({ id := 1 } : Task).actualHours
                updatedAt := 7
                status := Status.inProgress }
           else
            { ({ id := 1 } : Task) with
                progress := clampProgress 100
                actualHours := (none : Option Int).getD ({ id := 1 } : Task).actualHours
                updatedAt := 7 }))) :=
  ⟨by decide, updateTaskProgress_characterization c5State 7 1 100 none { id := 1 } (by decide)⟩

/-- C4, amended: whenever a first addEdge call succeeds (both ids resolve and
no dependency path connects the two tasks in either direction), the reverse
addEdge on the resulting state fails with DependencyCycle, and the state after
that failure equals the state before the failed call: the cycle check runs
before either side is mutated. -/
theorem addEdge_reverse_after_success_cycles (s : EngineState) (now now2 t1 t2 : Int)
    (h : (addTaskDependency s now t1 t2).err = none) :
    (addTaskDependency (addTaskDependency s now t1 t2).state now2 t2 t1).err =
      some Err.dependencyCycle ∧
    (addTaskDependency (addTaskDependency s now t1 t2).state now2 t2 t1).state =
      (addTaskDependency s now t1 t2).state := by
  unfold addTaskDependency at h
  cases hg1 : getTask s.tasks t1 with
  | none =>
    rw [hg1] at h
    cases hg2 : getTask s.tasks t2 with
    | none => rw [hg2] at h; simp at h
    | some tb => rw [hg2] at h; simp at h
  | some ta =>
    rw [hg1] at h
    cases hg2 : getTask s.tasks t2 with
    | none => rw [hg2] at h; simp at h
    | some tb =>
      rw [hg2] at h
      dsimp only at h
      by_cases hw : wouldCreateCircularDependency s.tasks t1 t2 = true
      · rw [if_pos hw] at h; simp at h
      · have hne : (t2 == t1) = false := by
          rcases hts : s.tasks with _ | ⟨thead, trest⟩
          · rw [hts] at hg1; simp [getTask] at hg1
          · unfold wouldCreateCircularDependency at hw
            rw [hts] at hw
            unfold wouldCreateCircularDependencyFuel at hw
            rcases hb : (t2 == t1) with _ | _
            · rfl
            · rw [hb] at hw
              simp at hw
        have hne2 : t1 ≠ t2 := fun hx => by
          rw [hx] at hne
          simp at hne
        have hf1 : ∀ u : Task,
            ((fun x : Task => if x.dependencies.contains t2 then x
              else { x with dependencies := x.dependencies ++ [t2] }) u).id = u.id := by
          intro u
          dsimp only
          split <;> rfl
        have hf2 : ∀ u : Task,
            ((fun x : Task => if x.dependents.contains t1 then x
              else { x with dependents := x.dependents ++ [t1] }) u).id = u.id := by
          intro u
          dsimp only
          split <;> rfl
        have hinner : addTaskDependency s now t1 t2 =
            ⟨none, { s with tasks := updateTaskStatuses now (modifyTask
              (modifyTask s.tasks t1 (fun x : Task => if x.dependencies.contains t2 then x
                else { x with dependencies := x.dependencies ++ [t2] }))
              t2 (fun x : Task => if x.dependents.contains t1 then x
                else { x with dependents := x.dependents ++ [t1] })) }⟩ := by
          unfold addTaskDependency
          rw [hg1, hg2]
          dsimp only
          rw [if_neg hw]
        rw [hinner]
        dsimp only
        set L := updateTaskStatuses now (modifyTask
            (modifyTask s.tasks t1 (fun x : Task => if x.dependencies.contains t2 then x
              else { x with dependencies := x.dependencies ++ [t2] }))
            t2 (fun x : Task => if x.dependents.contains t1 then x
              else { x with dependents := x.dependents ++ [t1] })) with hL
        have hget1 : getTask L t1 =
            some (overdueSweepTask now
              (if ta.dependencies.contains t2 then ta
                else { ta with dependencies := ta.dependencies ++ [t2] })) := by
          rw [hL]
          rw [getTask_updateTaskStatuses]
          rw [getTask_modifyTask_ne _ t2 t1 _ hf2 hne2]
          rw [getTask_modifyTask_found s.tasks t1 _ ta hg1 (hf1 ta)]
          rfl
        have hget2 : (getTask L t2).isSome = true := by
          rw [hL]
          rw [getTask_updateTaskStatuses]
          rw [getTask_modifyTask_self _ t2 _ hf2]
          rw [getTask_modifyTask_ne _ t1 t2 _ hf1 (fun hx => hne2 hx.symm)]
          rw [hg2]
          rfl
        have hdep : t2 ∈ (overdueSweepTask now
            (if ta.dependencies.contains t2 then ta
              else { ta with dependencies := ta.dependencies ++ [t2] })).dependencies := by
          rw [overdueSweepTask_dependencies]
          split
          · next hcon => exact List.elem_iff.mp hcon
          · exact List.mem_append_right _ (List.mem_singleton.mpr rfl)
        have hwcc : wouldCreateCircularDependency L t2 t1 = true := by
          unfold wouldCreateCircularDependency
          have hleq : L.map Task.id = s.tasks.map Task.id := by
            rw [hL, ids_updateTaskStatuses]
            exact (ids_modifyTask _ _ _ hf2).trans (ids_modifyTask _ _ _ hf1)
          have hlen : L.length = s.tasks.length := by
            have hc := congrArg List.length hleq
            rw [List.length_map, List.length_map] at hc
            exact hc
          rw [hlen]
          obtain ⟨k, hk⟩ : ∃ k, s.tasks.length = k + 1 := by
            have hpos := List.length_pos.mpr (getTask_some_ne_nil s.tasks t1 ta hg1)
            exact ⟨s.tasks.length - 1, by omega⟩
          rw [hk]
          unfold wouldCreateCircularDependencyFuel
          have hc0 : (([] : List Int).contains t1) = false := rfl
          rw [hc0, if_neg (by simp)]
          have hne3 : (t1 == t2) = false := beq_eq_false_iff_ne.mpr hne2
          rw [hne3, if_neg (by simp)]
          rw [hget1]
          dsimp only
          rw [List.any_eq_true]
          refine ⟨t2, hdep, ?_⟩
          unfold wouldCreateCircularDependencyFuel
          have hc1 : ([t1].contains t2) = false := by
            simp only [List.contains, List.elem]
            rw [hne]
          rw [hc1, if_neg (by simp)]
          rw [beq_self_eq_true, if_pos rfl]
        obtain ⟨tc, hget2s⟩ := Option.isSome_iff_exists.mp hget2
        unfold addTaskDependency
        rw [hget1, hget2s]
        dsimp only
        rw [if_pos hwcc]
        exact ⟨rfl, rfl⟩

theorem tick_daily_once (ts : List Task) (sch : RecurringSchedule) (D : Int)
    (creator : String)
    (hAct : sch.isActive = true) (hTy : sch.template.recurringType = some RecurringType.daily)
    (hInt : sch.template.recurringInterval = 2) (hDue : sch.nextDue = D)
    (hEnd : sch.endDate = none) (hDeps : sch.template.dependencies = []) :
    processRecurringTasks ⟨ts, [sch]⟩ D creator =
      ⟨none, ⟨updateTaskStatuses D ts ++ [newTaskFromData ts D creator (instanceData D sch)],
        [{ sch with
            createdInstances := sch.createdInstances ++ [getNextTaskId ts]
            nextDue := D + 2 * dayMs }]⟩⟩ := by
  have hnd : (newTaskFromData ts D creator (instanceData D sch)).dependencies = [] := by
    simp [newTaskFromData, instanceData, hDeps]
  have hnr : (newTaskFromData ts D creator (instanceData D sch)).isRecurring = false := rfl
  have hdd : (newTaskFromData ts D creator (instanceData D sch)).dueDate = some D := by
    simp [newTaskFromData, instanceData, hDue]
  have hcreate : createTask ⟨ts, [sch]⟩ D creator (instanceData D sch) =
      ⟨none, ⟨updateTaskStatuses D (ts ++ [newTaskFromData ts D creator (instanceData D sch)]),
        [sch]⟩⟩ := by
    unfold createTask
    dsimp only
    unfold createTaskDepsPhase
    rw [hnd]
    rw [if_neg (by simp)]
    dsimp only
    rw [hnr]
    rw [if_neg (by simp)]
    unfold createTaskPush
    rfl
  have hsweepnt : overdueSweepTask D (newTaskFromData ts D creator (instanceData D sch)) =
      newTaskFromData ts D creator (instanceData D sch) := by
    unfold overdueSweepTask
    rw [hdd]
    dsimp only
    rw [if_neg (by simp)]
  have hinst : createRecurringTaskInstance ⟨ts, [sch]⟩ D creator sch =
      (⟨none, ⟨updateTaskStatuses D
          (ts ++ [newTaskFromData ts D creator (instanceData D sch)]), [sch]⟩⟩,
       { sch with
          createdInstances := sch.createdInstances ++ [getNextTaskId ts]
          nextDue := D + 2 * dayMs }) := by
    unfold createRecurringTaskInstance
    dsimp only
    rw [hcreate]
    dsimp only
    rw [hTy, hInt, hDue]
    rfl
  unfold processRecurringTasks
  unfold processSchedules
  rw [hAct, hEnd, hDue]
  rw [if_neg (by simp)]
  dsimp only
  rw [if_neg (by simp)]
  rw [if_pos (le_refl D)]
  rw [hinst]
  dsimp only
  unfold processSchedules
  dsimp only
  rw [updateTaskStatuses, List.map_append]
  rw [updateTaskStatuses]
  simp only [List.map_cons, List.map_nil]
  rw [hsweepnt, hAct, hEnd]

theorem tick_noop_of_future (tasks1 : List Task) (sch2 : RecurringSchedule) (now : Int)
    (creator : String) (hAct : sch2.isActive = true) (hEnd : sch2.endDate = none)
    (hFut : ¬ sch2.nextDue ≤ now) :
    processRecurringTasks ⟨tasks1, [sch2]⟩ now creator = ⟨none, ⟨tasks1, [sch2]⟩⟩ := by
  unfold processRecurringTasks
  unfold processSchedules
  rw [hAct, hEnd]
  rw [if_neg (by simp)]
  dsimp only
  rw [if_neg (by simp)]
  rw [if_neg hFut]
  unfold processSchedules
  rfl

/-- C2: a first tick at now = D on a store holding one active DAILY schedule
with interval 2, nextDue = D, no end date and a dependency-free template
creates exactly one new task instance, with dueDate = D and the next fresh id,
and advances nextDue to D plus two days, computed from the previous nextDue; a
second tick at the same now = D leaves the whole state unchanged, creating no
further instance. -/
theorem daily_tick_creates_once_and_advances (ts : List Task) (sch : RecurringSchedule)
    (D : Int) (creator : String)
    (hAct : sch.isActive = true) (hTy : sch.template.recurringType = some RecurringType.daily)
    (hInt : sch.template.recurringInterval = 2) (hDue : sch.nextDue = D)
    (hEnd : sch.endDate = none) (hDeps : sch.template.dependencies = []) :
    (processRecurringTasks ⟨ts, [sch]⟩ D creator).err = none ∧
    (∃ inst : Task,
      (processRecurringTasks ⟨ts, [sch]⟩ D creator).state.tasks =
        updateTaskStatuses D ts ++ [inst] ∧
      inst.dueDate = some D ∧ inst.id = getNextTaskId ts) ∧
    (processRecurringTasks ⟨ts, [sch]⟩ D creator).state.schedules =
      [{ sch with
          createdInstances := sch.createdInstances ++ [getNextTaskId ts]
          nextDue := D + 2 * dayMs }] ∧
    (processRecurringTasks (processRecurringTasks ⟨ts, [sch]⟩ D creator).state D creator).err =
      none ∧
    (processRecurringTasks (processRecurringTasks ⟨ts, [sch]⟩ D creator).state D creator).state =
      (processRecurringTasks ⟨ts, [sch]⟩ D creator).state := by
  have h1 := tick_daily_once ts sch D creator hAct hTy hInt hDue hEnd hDeps
  rw [h1]
  have hdd : (newTaskFromData ts D creator (instanceData D sch)).dueDate = some D := by
    simp [newTaskFromData, instanceData, hDue]
  have h2 := tick_noop_of_future
    (updateTaskStatuses D ts ++ [newTaskFromData ts D creator (instanceData D sch)])
    { sch with
        createdInstances := sch.createdInstances ++ [getNextTaskId ts]
        nextDue := D + 2 * dayMs }
    D creator hAct hEnd (by unfold dayMs; dsimp only; omega)
  refine ⟨rfl, ⟨newTaskFromData ts D creator (instanceData D sch), rfl, hdd, rfl⟩, rfl, ?_, ?_⟩
  · rw [h2]
  · rw [h2]

/-- Fixtures for the C2 witness: an active DAILY schedule with interval 2 due
at time 0. -/
def c2Template : Task :=
  { id := 0, title := "tmpl", isRecurring := true,
    recurringType := some RecurringType.daily, recurringInterval := 2 }

def c2Sched : RecurringSchedule :=
  { id := 7, parentTaskId := 0, type := some RecurringType.daily, interval := 2,
    nextDue := 0, template := c2Template }

/-- C2, witness at the concrete schedule. -/
theorem daily_tick_creates_once_and_advances_witness :
    (processRecurringTasks ⟨[], [c2Sched]⟩ 0 "system").err = none ∧
    (∃ inst : Task,
      (processRecurringTasks ⟨[], [c2Sched]⟩ 0 "system").state.tasks =
        updateTaskStatuses 0 [] ++ [inst] ∧
      inst.dueDate = some 0 ∧ inst.id = getNextTaskId []) ∧
    (processRecurringTasks ⟨[], [c2Sched]⟩ 0 "system").state.schedules =
      [{ c2Sched with
          createdInstances := c2Sched.createdInstances ++ [getNextTaskId []]
          nextDue := 0 + 2 * dayMs }] ∧
    (processRecurringTasks (processRecurringTasks ⟨[], [c2Sched]⟩ 0 "system").state 0
      "system").err = none ∧
    (processRecurringTasks (processRecurringTasks ⟨[], [c2Sched]⟩ 0 "system").state 0
      "system").state = (processRecurringTasks ⟨[], [c2Sched]⟩ 0 "system").state :=
  daily_tick_creates_once_and_advances [] c2Sched 0 "system" rfl rfl rfl rfl rfl rfl

/-- C4, witness for the amended theorem at a two-task store. -/
theorem addEdge_reverse_after_success_cycles_witness :
    (addTaskDependency ⟨[{ id := 1 }, { id := 2 }], []⟩ 0 1 2).err = none ∧
    ((addTaskDependency (addTaskDependency ⟨[{ id := 1 }, { id := 2 }], []⟩ 0 1 2).state
        0 2 1).err = some Err.dependencyCycle ∧
      (addTaskDependency (addTaskDependency ⟨[{ id := 1 }, { id := 2 }], []⟩ 0 1 2).state
        0 2 1).state = (addTaskDependency ⟨[{ id := 1 }, { id := 2 }], []⟩ 0 1 2).state) :=
  ⟨by decide, addEdge_reverse_after_success_cycles ⟨[{ id := 1 }, { id := 2 }], []⟩ 0 0 1 2
    (by decide)⟩

end PhoenixTask
